import Mathlib

/-!
Verification of the `kubecfg-operator` repository: a shallow embedding of
`api/v1/konfiguration_utils.go` (the Konfiguration accessors, the
KubeConfig secret fetch and the kubecfg argument construction), of the
CRD schema constraints in
`config/crd/bases/apps.kubecfg.io_konfigurations.yaml`, and of the
reconciler behaviour the specification describes for parts of the
controller that are outside the two source files.

Go `time.Duration` is an `int64` nanosecond count; durations here are
`Int` (no arithmetic overflows are relevant to the properties proved).
Go maps (`map[string]string`, `map[string][]byte`) are association lists
with unique keys; Go map iteration order is unspecified, so where it
matters the list order plays the role of one concrete iteration order
and permutation quantifies over the others.
-/

namespace KubecfgOperator

abbrev Duration := Int

/-- `types.NamespacedName` from apimachinery. -/
structure NamespacedName where
  name : String
  «namespace» : String
deriving DecidableEq

/-- `LocalObjectReference`: the `secretRef` field of a KubeConfig. -/
structure SecretRef where
  name : String
deriving DecidableEq

/-- `KubeConfig` holds the reference to a secret containing a kubeconfig. -/
structure KubeConfig where
  secretRef : SecretRef
deriving DecidableEq

/-- `dependency.CrossNamespaceDependencyReference` from fluxcd: name plus
optional namespace (absent namespace is the empty string in Go). -/
structure CrossNamespaceDependencyReference where
  name : String
  «namespace» : String
deriving DecidableEq

/-- `CrossNamespaceSourceReference`: reference of the source of manifests. -/
structure CrossNamespaceSourceReference where
  apiVersion : String
  kind : String
  name : String
  «namespace» : String
deriving DecidableEq

/-- `Variables`: the four string-keyed Go maps of external and top level
arguments, embedded as association lists. -/
structure Variables where
  extStr : List (String × String)
  extCode : List (String × String)
  tlaStr : List (String × String)
  tlaCode : List (String × String)
deriving DecidableEq

/-- `KonfigurationSpec`, fields as in the CRD schema. Optional scalar
fields that Go represents as pointers (`*metav1.Duration`,
`*KubeConfig`, `*CrossNamespaceSourceReference`, `*Variables`) are
`Option`; `omitempty` strings default to `""`. -/
structure KonfigurationSpec where
  dependsOn : List CrossNamespaceDependencyReference
  diffStrategy : String
  interval : Duration
  kubeConfig : Option KubeConfig
  kubecfgArgs : List String
  path : String
  prune : Bool
  retryInterval : Option Duration
  sourceRef : Option CrossNamespaceSourceReference
  suspend : Bool
  timeout : Option Duration
  validate : Bool
  «variables» : Option Variables
deriving DecidableEq

/-- A namespace entry of a status `Snapshot`: Go `map[string]string` of
kinds, plus the namespace. -/
structure SnapshotEntry where
  kinds : List (String × String)
  «namespace» : String
deriving DecidableEq

/-- The status `Snapshot`: checksum plus per-namespace entries. -/
structure Snapshot where
  checksum : String
  entries : List SnapshotEntry
deriving DecidableEq

/-- `KonfigurationStatus`, the fields relevant to the claims. -/
structure KonfigurationStatus where
  observedGeneration : Int
  lastAppliedRevision : String
  lastAttemptedRevision : String
  snapshot : Option Snapshot
deriving DecidableEq

/-- A `Konfiguration` object: metadata identity, spec and status. -/
structure Konfiguration where
  name : String
  «namespace» : String
  spec : KonfigurationSpec
  status : KonfigurationStatus
deriving DecidableEq

/-- `ObjectMeta.GetNamespace`. -/
def Konfiguration.GetNamespace (k : Konfiguration) : String := k.«namespace»

/-- `GetInterval` returns the interval at which to reconcile. -/
def Konfiguration.GetInterval (k : Konfiguration) : Duration :=
  k.spec.interval

/-- `GetRetryInterval` returns the retry interval, defaulting to the
interval when unset. -/
def Konfiguration.GetRetryInterval (k : Konfiguration) : Duration :=
  match k.spec.retryInterval with
  | some d => d
  | none => k.GetInterval

/-- `GetTimeout` returns the timeout, defaulting to the interval when
unset. -/
def Konfiguration.GetTimeout (k : Konfiguration) : Duration :=
  match k.spec.timeout with
  | some d => d
  | none => k.GetInterval

/-- `GetKubeConfig` returns the kubeconfig reference if defined. -/
def Konfiguration.GetKubeConfig (k : Konfiguration) : Option KubeConfig :=
  k.spec.kubeConfig

/-- `GetPath` returns the path to evaluate. -/
def Konfiguration.GetPath (k : Konfiguration) : String := k.spec.path

/-- `GetVariables` returns the external and top level arguments. -/
def Konfiguration.GetVariables (k : Konfiguration) : Option Variables :=
  k.spec.«variables»

/-- `GetKubecfgArgs` returns user-defined kubecfg arguments. -/
def Konfiguration.GetKubecfgArgs (k : Konfiguration) : List String :=
  k.spec.kubecfgArgs

/-- `GCEnabled` returns whether garbage collection is enabled. -/
def Konfiguration.GCEnabled (k : Konfiguration) : Bool := k.spec.prune

/-- `ValidateEnabled` returns whether server-side validation is enabled. -/
def Konfiguration.ValidateEnabled (k : Konfiguration) : Bool :=
  k.spec.validate

/-- `IsSuspended` returns whether reconciliation is suspended. -/
def Konfiguration.IsSuspended (k : Konfiguration) : Bool := k.spec.suspend

/-- `GetDiffStrategy` retrieves the diff strategy string. -/
def Konfiguration.GetDiffStrategy (k : Konfiguration) : String :=
  k.spec.diffStrategy

/-- `GetDependsOn` returns the object's own NamespacedName and the
`dependsOn` slice, both exactly as stored (the receiver is taken by
value and nothing is rewritten). -/
def Konfiguration.GetDependsOn (k : Konfiguration) :
    NamespacedName × List CrossNamespaceDependencyReference :=
  ({ name := k.name, «namespace» := k.«namespace» }, k.spec.dependsOn)

/-- `GetSourceRef`: when a sourceRef is set and its namespace is empty,
the Go code assigns the Konfiguration's own namespace into
`k.Spec.SourceRef.Namespace` (mutating the receiver through the
pointer) and returns the pointer. The embedding returns the reference
together with the post-call object. -/
def Konfiguration.GetSourceRef (k : Konfiguration) :
    Option CrossNamespaceSourceReference × Konfiguration :=
  match k.spec.sourceRef with
  | some ref =>
    if ref.«namespace» = "" then
      let ref2 := { ref with «namespace» := k.GetNamespace }
      (some ref2, { k with spec := { k.spec with sourceRef := some ref2 } })
    else
      (some ref, k)
  | none => (none, k)

/-! ## KubeConfig.Fetch over a fake cluster client

`corev1.Secret` data is `map[string][]byte`; a nil map and a missing key
are distinct in Go, so `data` is an `Option` of an association list.
Byte slices are kept as `String` (the `string(bytes)` conversion at the
end of `Fetch` is the identity under this representation). The client's
`Get` is a lookup in a store keyed by `NamespacedName`; a miss is the
NotFound error the claim refers to. -/

/-- A secret: its own metadata (used in error messages via
`GetNamespace`/`GetName`) and its optional data map. -/
structure Secret where
  meta : NamespacedName
  data : Option (List (String × String))
deriving DecidableEq

/-- The cluster client, restricted to secret `Get`: a finite store. -/
abbrev Client := List (NamespacedName × Secret)

/-- `client.Get` on the fake store. -/
def clientGet (c : Client) (nn : NamespacedName) : Option Secret :=
  c.lookup nn

/-- The error outcomes of `KubeConfig.Fetch`: the propagated client
error for a failed `Get`, and the two `fmt.Errorf` cases (no data map,
no `value` key), each carrying the secret's namespace and name. -/
inductive FetchError where
  | getFailed : NamespacedName → FetchError
  | noData : String → String → FetchError
  | noValueKey : String → String → FetchError
deriving DecidableEq

/-- `KubeConfig.Fetch`: look up the secret named by the secretRef in the
given namespace; propagate a `Get` error; error when the data map is
nil; error when the `value` key is absent; otherwise return the bytes
under `value` as a string. Returns the Go `(string, error)` pair. -/
def KubeConfig.Fetch (k : KubeConfig) (c : Client) (ns : String) :
    String × Option FetchError :=
  let nn : NamespacedName := { name := k.secretRef.name, «namespace» := ns }
  match clientGet c nn with
  | none => ("", some (FetchError.getFailed nn))
  | some secret =>
    match secret.data with
    | none =>
      ("", some (FetchError.noData secret.meta.«namespace» secret.meta.name))
    | some d =>
      match d.lookup "value" with
      | none =>
        ("", some (FetchError.noValueKey secret.meta.«namespace» secret.meta.name))
      | some bytes => (bytes, none)

/-! ## Variables.AppendToArgs

The Go code iterates each of the four maps appending
`flag, "key=value"` pairs, ExtStr then ExtCode then TLAStr then
TLACode. `fmt.Sprintf` with two `%s` verbs is string concatenation. -/

/-- One map's loop body: the `flag, "k=v"` pairs appended for each
entry, in iteration order. -/
def varPairs (flag : String) (m : List (String × String)) : List String :=
  m.flatMap (fun kv => [flag, kv.1 ++ "=" ++ kv.2])

/-- `Variables.AppendToArgs`: append the formatted flags for the four
maps, in the order of the Go function's four loops. -/
def Variables.AppendToArgs (v : Variables) (args : List String) :
    List String :=
  let args1 := args ++ varPairs "--ext-str" v.extStr
  let args2 := args1 ++ varPairs "--ext-code" v.extCode
  let args3 := args2 ++ varPairs "--tla-str" v.tlaStr
  args3 ++ varPairs "--tla-code" v.tlaCode

/-! ## CRD schema constraints for `diffStrategy`

From `config/crd/bases/apps.kubecfg.io_konfigurations.yaml`: the
`diffStrategy` property has `enum: [all, subset, last-applied]` and
`default: subset`. The API server rejects a submitted value outside the
enum and substitutes the default when the field is omitted. -/

/-- The `enum` constraint of the `diffStrategy` schema property. -/
def diffStrategyAllowed (s : String) : Bool :=
  s == "all" || s == "subset" || s == "last-applied"

/-- Schema defaulting: an omitted `diffStrategy` becomes `subset`. -/
def defaultDiffStrategy (submitted : Option String) : String :=
  match submitted with
  | some s => s
  | none => "subset"

/-- Admission of a submitted `diffStrategy` according to the schema:
a present value must satisfy the enum; an absent value is admitted (the
default is substituted). -/
def diffStrategyAdmitted (submitted : Option String) : Bool :=
  match submitted with
  | some s => diffStrategyAllowed s
  | none => true

/-! ## Dependency Gate

Modelled from the spec: the Dependency Gate (`isReady`) is not part of
the two source files (the CRD marks `dependsOn` as not yet implemented,
and no gate code is under `src/`). Following spec section 4.1: for each
entry in `dependsOn`, a missing referenced unit or a `Ready` status
other than True gives NotReady; resolution walks the dependency graph
depth-first from the requesting unit with a per-call visited set, and
revisiting a node already on the current path gives Cycle.

The graph is a finite association list from unit name to its
`dependsOn` names; `ready` gives each unit's `Ready` condition. The
recursion is total: each descent pushes a node of the graph not yet on
the path, so the number of graph keys off the path strictly decreases
(this is the no-looping guarantee the spec demands). -/

/-- Result vocabulary of the gate, spec section 4.1. -/
inductive GateResult where
  | ready : GateResult
  | notReady : GateResult
  | cycle : GateResult
deriving DecidableEq

/-- A dependency graph: unit name to the names it depends on. -/
abbrev DepGraph := List (String × List String)

/-- Keys of the graph not yet on the path: the termination measure of
the depth-first walk. -/
def offPath (g : DepGraph) (path : List String) : Nat :=
  ((g.map Prod.fst).filter (fun x => decide (x ∉ path))).length

/-- A successful lookup key is among the mapped first components. -/
theorem lookup_some_mem_keys {α : Type} [BEq α] [LawfulBEq α] {β : Type}
    (l : List (α × β)) (a : α) (b : β) (h : l.lookup a = some b) :
    a ∈ l.map Prod.fst := by
  induction l with
  | nil => simp [List.lookup] at h
  | cons hd tl ih =>
    rw [List.lookup] at h
    by_cases hab : a == hd.1
    · simp only [hab] at h
      simp [List.map_cons, eq_of_beq hab]
    · simp only [hab] at h
      exact List.mem_cons_of_mem _ (ih h)

/-- Filtering with membership excluded from a longer path keeps fewer
elements, strictly so when the new excluded element occurs. -/
theorem filter_notmem_cons_length_lt (l path : List String) (d : String)
    (hmem : d ∈ l) (hnp : d ∉ path) :
    (l.filter (fun x => decide (x ∉ d :: path))).length <
      (l.filter (fun x => decide (x ∉ path))).length := by
  induction l with
  | nil => cases hmem
  | cons x t ih =>
    have hmono : (t.filter (fun x => decide (x ∉ d :: path))).length ≤
        (t.filter (fun x => decide (x ∉ path))).length := by
      refine List.Sublist.length_le (List.monotone_filter_right t ?_)
      intro a ha
      simp only [decide_eq_true_eq] at ha ⊢
      exact fun hc => ha (List.mem_cons_of_mem _ hc)
    rcases List.mem_cons.mp hmem with h | h
    · subst h
      rw [List.filter_cons, List.filter_cons]
      have h2 : (decide (d ∉ d :: path)) = false :=
        decide_eq_false (not_not_intro (List.mem_cons_self d path))
      have h1 : (decide (d ∉ path)) = true := decide_eq_true hnp
      rw [h2, h1]
      simpa using Nat.lt_succ_of_le hmono
    · rw [List.filter_cons, List.filter_cons]
      by_cases hx2 : x ∈ d :: path
      · have h2 : (decide (x ∉ d :: path)) = false :=
          decide_eq_false (not_not_intro hx2)
        rw [h2]
        by_cases hx1 : x ∈ path
        · have h1 : (decide (x ∉ path)) = false :=
            decide_eq_false (not_not_intro hx1)
          rw [h1]
          exact ih h
        · have h1 : (decide (x ∉ path)) = true := decide_eq_true hx1
          rw [h1]
          exact Nat.lt_succ_of_lt (ih h)
      · have h2 : (decide (x ∉ d :: path)) = true := decide_eq_true hx2
        have hx1 : x ∉ path := fun hc => hx2 (List.mem_cons_of_mem _ hc)
        have h1 : (decide (x ∉ path)) = true := decide_eq_true hx1
        rw [h2, h1]
        simpa using Nat.succ_lt_succ (ih h)

/-- Pushing a graph key onto the path strictly shrinks `offPath`. -/
theorem offPath_cons_lt (g : DepGraph) (path : List String) (d : String)
    (hmem : d ∈ g.map Prod.fst) (hnp : d ∉ path) :
    offPath g (d :: path) < offPath g path :=
  filter_notmem_cons_length_lt (g.map Prod.fst) path d hmem hnp

/-- Depth-first resolution over the list of dependencies still to check
at the current node, with `path` the chain of units from the requesting
one down to the current node (the per-call visited set). -/
def resolveDeps (g : DepGraph) (ready : String → Bool) :
    List String → List String → GateResult
  | _, [] => GateResult.ready
  | path, d :: ds =>
    if hdp : d ∈ path then GateResult.cycle
    else
      match hl : g.lookup d with
      | none => GateResult.notReady
      | some deps =>
        if ready d then
          match resolveDeps g ready (d :: path) deps with
          | GateResult.ready => resolveDeps g ready path ds
          | r => r
        else GateResult.notReady
termination_by path l => (offPath g path, l.length)
decreasing_by
  · exact Prod.Lex.left _ _
      (offPath_cons_lt g path d (lookup_some_mem_keys g d deps hl) hdp)
  · exact Prod.Lex.right _ (Nat.lt_succ_self _)

/-- `isReady`: resolve the requesting unit's dependencies depth-first;
the requesting unit itself is the root of the current path. A unit with
no entry in the graph has no dependencies to check. -/
def isReady (g : DepGraph) (ready : String → Bool) (n : String) :
    GateResult :=
  resolveDeps g ready [n] ((g.lookup n).getD [])

/-! ## Reconciliation attempt and Snapshot commit

Modelled from the spec: the Reconcile Scheduler, Apply Executor, Pruner
and Snapshot/Status Tracker are not under `src/`. Following spec
sections 4.4 to 4.6 and 7: an attempt renders, executes the apply
operations under a deadline (operations past the deadline are aborted,
injected per-operation failures are collected, not fail-fast), prunes
(collecting per-entry deletion failures), and commits the status:
`lastAttemptedRevision` always; `lastAppliedRevision`, the Snapshot and
Ready only when Apply and Prune both report zero outstanding failures.
The Snapshot is replaced atomically, never partially. -/

/-- Per-operation outcome vocabulary, spec section 4.4. -/
inductive OpOutcome where
  | success : OpOutcome
  | failed : OpOutcome
  | aborted : OpOutcome
deriving DecidableEq

/-- Failure injection for one attempt: whether rendering fails, which
apply operation indices fail, how many operations run before the
deadline expires (`none` = no timeout), and which stale entries fail to
delete during pruning. -/
structure Injection where
  renderFails : Bool
  applyFailAt : List Nat
  deadlineAt : Option Nat
  pruneFailAt : List Nat
deriving DecidableEq

/-- Run the apply phase over `nOps` ordered operations: an operation at
or past the deadline cutoff is aborted, an injected-failing one fails,
the rest succeed. Outcomes are collected for every operation. -/
def runApply (nOps : Nat) (inj : Injection) : List OpOutcome :=
  (List.range nOps).map (fun i =>
    match inj.deadlineAt with
    | some cut =>
      if i ≥ cut then OpOutcome.aborted
      else if i ∈ inj.applyFailAt then OpOutcome.failed
      else OpOutcome.success
    | none =>
      if i ∈ inj.applyFailAt then OpOutcome.failed
      else OpOutcome.success)

/-- Outstanding prune failures over `nStale` stale entries. -/
def runPrune (nStale : Nat) (inj : Injection) : Nat :=
  ((List.range nStale).filter (fun i => decide (i ∈ inj.pruneFailAt))).length

/-- An attempt fully succeeded: rendering worked, every apply operation
succeeded (none failed, none aborted), and pruning reports zero
outstanding retryable failures. -/
def attemptSucceeded (nOps nStale : Nat) (inj : Injection) : Bool :=
  !inj.renderFails
    && (runApply nOps inj).all (fun o => o == OpOutcome.success)
    && runPrune nStale inj == 0

/-- Commit one reconciliation attempt into the status:
`lastAttemptedRevision` is always advanced; `lastAppliedRevision` and
the Snapshot are replaced, in one atomic status write, exactly when the
attempt fully succeeded. -/
def commitAttempt (st : KonfigurationStatus) (rev : String)
    (newSnap : Snapshot) (nOps nStale : Nat) (inj : Injection) :
    KonfigurationStatus :=
  if attemptSucceeded nOps nStale inj then
    { st with
      lastAttemptedRevision := rev
      lastAppliedRevision := rev
      snapshot := some newSnap }
  else
    { st with lastAttemptedRevision := rev }

/-! ## Concrete objects used by witnesses and counterexamples -/

/-- A minimal spec: required fields set, optional fields absent. -/
def specBase : KonfigurationSpec :=
  { dependsOn := []
    diffStrategy := "subset"
    interval := 300000000000
    kubeConfig := none
    kubecfgArgs := []
    path := "manifests/app.jsonnet"
    prune := true
    retryInterval := none
    sourceRef := none
    suspend := false
    timeout := none
    validate := true
    «variables» := none }

/-- An empty status. -/
def statusBase : KonfigurationStatus :=
  { observedGeneration := 1
    lastAppliedRevision := ""
    lastAttemptedRevision := ""
    snapshot := none }

/-- A minimal Konfiguration object. -/
def konfigBase : Konfiguration :=
  { name := "app", «namespace» := "default"
    spec := specBase, status := statusBase }

/-- A Konfiguration whose sourceRef is set with an empty namespace. -/
def konfigSrc : Konfiguration :=
  { konfigBase with
    spec := { specBase with
      sourceRef := some { apiVersion := "source.toolkit.fluxcd.io/v1beta1"
                          kind := "GitRepository", name := "repo"
                          «namespace» := "" } } }

/-- A Konfiguration in namespace `ns` with one dependsOn entry whose
namespace is empty. -/
def konfigDep : Konfiguration :=
  { konfigBase with
    «namespace» := "ns"
    spec := { specBase with
      dependsOn := [{ name := "b", «namespace» := "" }] } }

/-- The two-node cyclic dependency graph a to b to a. -/
def graphAB : DepGraph := [("a", ["b"]), ("b", ["a"])]

/-- Variables with two ExtStr entries in one iteration order. -/
def varsA : Variables :=
  { extStr := [("a", "1"), ("b", "2")]
    extCode := [], tlaStr := [], tlaCode := [] }

/-- The same map contents as `varsA` in the other iteration order. -/
def varsB : Variables :=
  { extStr := [("b", "2"), ("a", "1")]
    extCode := [], tlaStr := [], tlaCode := [] }

/-! ## Claims -/

/-- C1: for every KubeConfig reference, client store and namespace,
`Fetch` returns the bytes stored under the secret's `value` key (with
no error) when the secret exists and has that key, and returns the
empty string with an error exactly when the `Get` fails, the data map
is nil, or the data map lacks the `value` key; the case split below is
exhaustive, so no other outcome is possible. -/
theorem fetch_characterization (k : KubeConfig) (c : Client) (ns : String) :
    match clientGet c { name := k.secretRef.name, «namespace» := ns } with
    | none =>
      k.Fetch c ns =
        ("", some (FetchError.getFailed
          { name := k.secretRef.name, «namespace» := ns }))
    | some secret =>
      match secret.data with
      | none =>
        k.Fetch c ns =
          ("", some (FetchError.noData secret.meta.«namespace» secret.meta.name))
      | some d =>
        match d.lookup "value" with
        | none =>
          k.Fetch c ns =
            ("", some (FetchError.noValueKey secret.meta.«namespace» secret.meta.name))
        | some bytes => k.Fetch c ns = (bytes, none) := by
  cases hget : clientGet c { name := k.secretRef.name, «namespace» := ns } with
  | none => simp [KubeConfig.Fetch, hget]
  | some secret =>
    cases hdata : secret.data with
    | none => simp [KubeConfig.Fetch, hget, hdata]
    | some d =>
      cases hval : d.lookup "value" with
      | none => simp [KubeConfig.Fetch, hget, hdata, hval]
      | some bytes => simp [KubeConfig.Fetch, hget, hdata, hval]

/-- C2: `GetRetryInterval` returns the configured retryInterval when
set, otherwise the interval; `GetTimeout` returns the configured
timeout when set, otherwise the interval; when both are unset all
three of `GetRetryInterval`, `GetTimeout` and `GetInterval` agree. -/
theorem retry_timeout_defaults (k : Konfiguration) :
    (∀ d, k.spec.retryInterval = some d → k.GetRetryInterval = d) ∧
    (k.spec.retryInterval = none → k.GetRetryInterval = k.GetInterval) ∧
    (∀ d, k.spec.timeout = some d → k.GetTimeout = d) ∧
    (k.spec.timeout = none → k.GetTimeout = k.GetInterval) ∧
    (k.spec.retryInterval = none → k.spec.timeout = none →
      k.GetRetryInterval = k.GetInterval ∧
      k.GetTimeout = k.GetInterval ∧
      k.GetRetryInterval = k.GetTimeout) := by
  refine ⟨?_, ?_, ?_, ?_, ?_⟩
  · intro d hd
    simp [Konfiguration.GetRetryInterval, hd]
  · intro hn
    simp [Konfiguration.GetRetryInterval, hn]
  · intro d hd
    simp [Konfiguration.GetTimeout, hd]
  · intro hn
    simp [Konfiguration.GetTimeout, hn]
  · intro hr ht
    simp [Konfiguration.GetRetryInterval, Konfiguration.GetTimeout, hr, ht]

/-- Witness for C2: on the base object, with both optional fields
unset, the three getters agree. -/
theorem retry_timeout_defaults_witness :
    konfigBase.GetRetryInterval = konfigBase.GetInterval ∧
    konfigBase.GetTimeout = konfigBase.GetInterval ∧
    konfigBase.GetRetryInterval = konfigBase.GetTimeout :=
  (retry_timeout_defaults konfigBase).2.2.2.2 rfl rfl

/-- C7: for a Konfiguration that passed CRD schema validation (the
submitted `diffStrategy` was admitted against the enum, and the stored
field is the submitted value after schema defaulting),
`GetDiffStrategy` is one of the three allowed strings, and when the
field was omitted it is `subset`. -/
theorem diffStrategy_schema (k : Konfiguration) (submitted : Option String)
    (hadm : diffStrategyAdmitted submitted = true)
    (hset : k.spec.diffStrategy = defaultDiffStrategy submitted) :
    diffStrategyAllowed k.GetDiffStrategy = true ∧
    (submitted = none → k.GetDiffStrategy = "subset") := by
  cases submitted with
  | none =>
    refine ⟨?_, fun _ => ?_⟩ <;>
      simp [Konfiguration.GetDiffStrategy, hset, defaultDiffStrategy,
        diffStrategyAllowed]
  | some s =>
    refine ⟨?_, fun hc => by cases hc⟩
    simp only [diffStrategyAdmitted] at hadm
    simpa [Konfiguration.GetDiffStrategy, hset, defaultDiffStrategy] using hadm

/-- Witness for C7: the base object stores the schema default. -/
theorem diffStrategy_schema_witness :
    diffStrategyAllowed konfigBase.GetDiffStrategy = true ∧
    ((none : Option String) = none → konfigBase.GetDiffStrategy = "subset") :=
  diffStrategy_schema konfigBase none rfl rfl

/-- C5, counterexample: `GetDependsOn` does not substitute the unit's
own namespace into a dependsOn entry whose namespace is empty; the
entry comes back empty, not as the unit's namespace `ns`. -/
theorem getDependsOn_no_defaulting_cex :
    konfigDep.«namespace» = "ns" ∧
    (konfigDep.GetDependsOn).2 = [{ name := "b", «namespace» := "" }] ∧
    (konfigDep.GetDependsOn).2 ≠ [{ name := "b", «namespace» := "ns" }] := by
  refine ⟨rfl, rfl, ?_⟩
  decide

/-- C5, amended: `GetDependsOn` returns the unit's own NamespacedName
together with the dependsOn list exactly as stored; defaulting an empty
entry namespace is left to the caller, which receives the unit's own
NamespacedName for that purpose. -/
theorem getDependsOn_returns_list_unchanged (k : Konfiguration) :
    k.GetDependsOn =
      ({ name := k.name, «namespace» := k.«namespace» }, k.spec.dependsOn) :=
  rfl

/-- C8: `GetSourceRef` returns none exactly when sourceRef is unset;
otherwise it returns the reference with an empty namespace replaced by
the unit's own namespace; and it is idempotent: calling it again on the
post-call object returns an equal reference and changes nothing
further. -/
theorem getSourceRef_spec (k : Konfiguration) :
    ((k.GetSourceRef).1 = none ↔ k.spec.sourceRef = none) ∧
    (∀ ref, k.spec.sourceRef = some ref →
      (k.GetSourceRef).1 =
        some (if ref.«namespace» = "" then
          { ref with «namespace» := k.«namespace» } else ref)) ∧
    ((k.GetSourceRef).2).GetSourceRef =
      ((k.GetSourceRef).1, (k.GetSourceRef).2) := by
  cases hsrc : k.spec.sourceRef with
  | none =>
    simp [Konfiguration.GetSourceRef, hsrc]
  | some ref =>
    by_cases hns : ref.«namespace» = ""
    · by_cases hk : k.«namespace» = "" <;>
        simp [Konfiguration.GetSourceRef, Konfiguration.GetNamespace,
          hsrc, hns, hk]
    · simp [Konfiguration.GetSourceRef, hsrc, hns]

/-- Witness for C8: on the object whose sourceRef namespace is empty,
the returned reference carries the unit's own namespace. -/
theorem getSourceRef_spec_witness :
    (konfigSrc.GetSourceRef).1 =
      some { apiVersion := "source.toolkit.fluxcd.io/v1beta1"
             kind := "GitRepository", name := "repo"
             «namespace» := "default" } := by
  have h := (getSourceRef_spec konfigSrc).2.1
    { apiVersion := "source.toolkit.fluxcd.io/v1beta1"
      kind := "GitRepository", name := "repo", «namespace» := "" } rfl
  simpa using h

/-- C4, counterexample: `GetSourceRef` mutates the spec through the
receiver pointer: on a unit in namespace `default` whose sourceRef
namespace is empty, the spec after the call differs from the spec
before it (its sourceRef namespace became `default`). -/
theorem getSourceRef_mutates_spec_cex :
    ((konfigSrc.GetSourceRef).2).spec ≠ konfigSrc.spec ∧
    ((konfigSrc.GetSourceRef).2).spec.sourceRef =
      some { apiVersion := "source.toolkit.fluxcd.io/v1beta1"
             kind := "GitRepository", name := "repo"
             «namespace» := "default" } := by
  refine ⟨?_, rfl⟩
  decide

/-- C4, amended: every accessor other than `GetSourceRef` is a pure
read and leaves the unit unchanged; `GetSourceRef` leaves the unit's
identity, its Status, and every spec field other than sourceRef
unchanged, does nothing when sourceRef is unset or already carries a
namespace, and otherwise only replaces the empty sourceRef namespace
with the unit's own. The Status subresource is never mutated by any
accessor. -/
theorem accessors_frame (k : Konfiguration) :
    ((k.GetSourceRef).2).name = k.name ∧
    ((k.GetSourceRef).2).«namespace» = k.«namespace» ∧
    ((k.GetSourceRef).2).status = k.status ∧
    ((k.GetSourceRef).2).spec.dependsOn = k.spec.dependsOn ∧
    ((k.GetSourceRef).2).spec.diffStrategy = k.spec.diffStrategy ∧
    ((k.GetSourceRef).2).spec.interval = k.spec.interval ∧
    ((k.GetSourceRef).2).spec.kubeConfig = k.spec.kubeConfig ∧
    ((k.GetSourceRef).2).spec.kubecfgArgs = k.spec.kubecfgArgs ∧
    ((k.GetSourceRef).2).spec.path = k.spec.path ∧
    ((k.GetSourceRef).2).spec.prune = k.spec.prune ∧
    ((k.GetSourceRef).2).spec.retryInterval = k.spec.retryInterval ∧
    ((k.GetSourceRef).2).spec.suspend = k.spec.suspend ∧
    ((k.GetSourceRef).2).spec.timeout = k.spec.timeout ∧
    ((k.GetSourceRef).2).spec.validate = k.spec.validate ∧
    ((k.GetSourceRef).2).spec.«variables» = k.spec.«variables» ∧
    (k.spec.sourceRef = none → (k.GetSourceRef).2 = k) ∧
    (∀ ref, k.spec.sourceRef = some ref → ref.«namespace» ≠ "" →
      (k.GetSourceRef).2 = k) ∧
    (∀ ref, k.spec.sourceRef = some ref → ref.«namespace» = "" →
      ((k.GetSourceRef).2).spec.sourceRef =
        some { ref with «namespace» := k.«namespace» }) := by
  cases hsrc : k.spec.sourceRef with
  | none =>
    simp [Konfiguration.GetSourceRef, hsrc]
  | some ref =>
    by_cases hns : ref.«namespace» = ""
    · simp [Konfiguration.GetSourceRef, Konfiguration.GetNamespace,
        hsrc, hns]
    · simp [Konfiguration.GetSourceRef, hsrc, hns]

/-- Witness for C4: on the base object, whose sourceRef is unset,
`GetSourceRef` leaves the whole unit unchanged. -/
theorem accessors_frame_witness :
    (konfigBase.GetSourceRef).2 = konfigBase := by
  obtain ⟨-, -, -, -, -, -, -, -, -, -, -, -, -, -, -, hnone, -, -⟩ :=
    accessors_frame konfigBase
  exact hnone rfl

/-- C3: under the spec-modelled reconciler, the Snapshot is replaced
only when rendering, every apply operation and pruning all report zero
outstanding failures; on every failure path (injected apply failure,
prune failure, render failure or timeout abort) the Snapshot and
`lastAppliedRevision` after the attempt equal their values before it;
and when the Snapshot does change it becomes the whole new snapshot in
one write, so a partial apply never produces a partial Snapshot
update. -/
theorem snapshot_atomic (st : KonfigurationStatus) (rev : String)
    (snap : Snapshot) (nOps nStale : Nat) (inj : Injection) :
    (attemptSucceeded nOps nStale inj = false →
      (commitAttempt st rev snap nOps nStale inj).snapshot = st.snapshot ∧
      (commitAttempt st rev snap nOps nStale inj).lastAppliedRevision =
        st.lastAppliedRevision) ∧
    (∀ i, i < nOps → (runApply nOps inj).get? i ≠ some OpOutcome.success →
      (commitAttempt st rev snap nOps nStale inj).snapshot = st.snapshot) ∧
    (runPrune nStale inj ≠ 0 →
      (commitAttempt st rev snap nOps nStale inj).snapshot = st.snapshot) ∧
    (inj.renderFails = true →
      (commitAttempt st rev snap nOps nStale inj).snapshot = st.snapshot) ∧
    ((commitAttempt st rev snap nOps nStale inj).snapshot ≠ st.snapshot →
      attemptSucceeded nOps nStale inj = true ∧
      (runApply nOps inj).all (fun o => o == OpOutcome.success) = true ∧
      runPrune nStale inj = 0 ∧
      (commitAttempt st rev snap nOps nStale inj).snapshot = some snap) ∧
    (commitAttempt st rev snap nOps nStale inj).lastAttemptedRevision =
      rev := by
  by_cases hs : attemptSucceeded nOps nStale inj = true
  · have hparts := hs
    simp only [attemptSucceeded, Bool.and_eq_true, Bool.not_eq_true',
      beq_iff_eq] at hparts
    obtain ⟨⟨hrender, happly⟩, hprune⟩ := hparts
    refine ⟨?_, ?_, ?_, ?_, ?_, ?_⟩
    · intro hc
      rw [hs] at hc
      cases hc
    · intro i hi hne
      exfalso
      apply hne
      have hlen : i < (runApply nOps inj).length := by
        simpa [runApply] using hi
      have hmem : (runApply nOps inj).get ⟨i, hlen⟩ ∈ runApply nOps inj :=
        List.get_mem _ _ _
      have := List.all_eq_true.mp happly _ hmem
      have hval : (runApply nOps inj).get ⟨i, hlen⟩ = OpOutcome.success :=
        by simpa using this
      rw [List.get?_eq_get hlen, hval]
    · intro hc
      exact absurd hprune hc
    · intro hc
      rw [hc] at hrender
      cases hrender
    · intro _
      refine ⟨hs, happly, hprune, ?_⟩
      simp [commitAttempt, hs]
    · simp [commitAttempt, hs]
  · have hs2 : attemptSucceeded nOps nStale inj = false :=
      Bool.eq_false_iff.mpr hs
    refine ⟨?_, ?_, ?_, ?_, ?_, ?_⟩
    · intro _
      constructor <;> simp [commitAttempt, hs2]
    · intro _ _ _
      simp [commitAttempt, hs2]
    · intro _
      simp [commitAttempt, hs2]
    · intro _
      simp [commitAttempt, hs2]
    · intro hc
      exfalso
      apply hc
      simp [commitAttempt, hs2]
    · simp [commitAttempt, hs2]

/-- Witness for C3: a one-operation attempt whose single apply
operation has an injected failure leaves the empty snapshot in place. -/
theorem snapshot_atomic_witness :
    (commitAttempt statusBase "rev1" { checksum := "c", entries := [] } 1 0
      { renderFails := false, applyFailAt := [0], deadlineAt := none
        pruneFailAt := [] }).snapshot = statusBase.snapshot :=
  (snapshot_atomic statusBase "rev1" { checksum := "c", entries := [] } 1 0
    { renderFails := false, applyFailAt := [0], deadlineAt := none
      pruneFailAt := [] }).1 (by decide) |>.1

/-- C6: the spec-modelled dependency gate terminates on every graph (it
is a total function whose depth-first walk is bounded by the graph keys
off the current path) and, for any graph of any size in which unit `a`
depends on `b` and `b` depends on `a` (both units Ready), `isReady a`
detects the revisit of `a` on the current path and returns Cycle. -/
theorem isReady_cycle (g : DepGraph) (ready : String → Bool)
    (a b : String) (hA : g.lookup a = some [b]) (hB : g.lookup b = some [a])
    (hrB : ready b = true) :
    isReady g ready a = GateResult.cycle := by
  unfold isReady
  rw [hA]
  show resolveDeps g ready [a] [b] = GateResult.cycle
  by_cases hba : b = a
  · subst hba
    rw [resolveDeps]
    simp
  · rw [resolveDeps]
    rw [dif_neg (by simpa using hba)]
    split
    · next heq =>
      rw [hB] at heq
      cases heq
    · next deps heq =>
      rw [hB] at heq
      have hdeps : deps = [a] := by
        injection heq with h
        exact h.symm
      subst hdeps
      simp only [hrB, if_true]
      have hinner : resolveDeps g ready (b :: [a]) [a] = GateResult.cycle := by
        rw [resolveDeps]
        simp
      rw [hinner]

/-- Witness for C6: on the concrete two-node graph the gate returns
Cycle. -/
theorem isReady_cycle_witness :
    isReady graphAB (fun _ => true) "a" = GateResult.cycle :=
  isReady_cycle graphAB (fun _ => true) "a" "b" rfl rfl rfl

/-- The entries of the four maps tagged with their flag, in the order
in which the Go function's four loops visit them. -/
def taggedEntries (v : Variables) : List (String × String × String) :=
  v.extStr.map (fun p => ("--ext-str", p)) ++
    v.extCode.map (fun p => ("--ext-code", p)) ++
    v.tlaStr.map (fun p => ("--tla-str", p)) ++
    v.tlaCode.map (fun p => ("--tla-code", p))

/-- Each map entry contributes exactly two argument strings. -/
theorem varPairs_length (flag : String) (m : List (String × String)) :
    (varPairs flag m).length = 2 * m.length := by
  induction m with
  | nil => rfl
  | cons hd tl ih =>
    simp only [varPairs, List.flatMap_cons, List.length_append,
      List.length_cons, List.length_nil] at ih ⊢
    omega

/-- `AppendToArgs` splits as the untouched input followed by the four
pair blocks. -/
theorem appendToArgs_split (v : Variables) (args : List String) :
    v.AppendToArgs args =
      args ++ (varPairs "--ext-str" v.extStr ++ varPairs "--ext-code" v.extCode ++
        varPairs "--tla-str" v.tlaStr ++ varPairs "--tla-code" v.tlaCode) := by
  simp [Variables.AppendToArgs, List.append_assoc]

/-- Tagging a map with a flag and rendering each tagged entry as its
two strings yields that map's pair block. -/
theorem flatMap_tagged (flag : String) (m : List (String × String)) :
    (m.map (fun p => (flag, p))).flatMap
        (fun e => [e.1, e.2.1 ++ "=" ++ e.2.2]) =
      varPairs flag m := by
  induction m with
  | nil => rfl
  | cons hd tl ih =>
    simp only [varPairs, List.map_cons, List.flatMap_cons] at ih ⊢
    rw [ih]

/-- C9: for every Variables value and starting argument list, the
result of `AppendToArgs` starts with the input arguments unchanged, has
length `args.length` plus twice the total entry count of the four maps,
and its appended part is exactly the flag matching each entry's map
followed by the `key=value` string of that entry, one pair per entry in
loop order. (`Variables` itself is a value here, so the maps are
trivially not modified.) -/
theorem appendToArgs_spec (v : Variables) (args : List String) :
    (v.AppendToArgs args).take args.length = args ∧
    (v.AppendToArgs args).length =
      args.length + 2 * (v.extStr.length + v.extCode.length +
        v.tlaStr.length + v.tlaCode.length) ∧
    (v.AppendToArgs args).drop args.length =
      (taggedEntries v).flatMap (fun e => [e.1, e.2.1 ++ "=" ++ e.2.2]) := by
  refine ⟨?_, ?_, ?_⟩
  · rw [appendToArgs_split, List.take_left]
  · rw [appendToArgs_split]
    simp only [List.length_append, varPairs_length]
    ring
  · rw [appendToArgs_split, List.drop_left]
    simp only [taggedEntries, List.flatMap_append, flatMap_tagged]

/-- C10, counterexample: `AppendToArgs` iterates Go maps, whose
iteration order is unspecified; two Variables values holding the same
ExtStr map contents (a permutation of one another, equal as maps) can
produce differently ordered argument lists, so the output is not
determined element for element by the map contents alone. -/
theorem appendToArgs_order_sensitive_cex :
    varsA.extStr.Perm varsB.extStr ∧
    varsA.extCode = varsB.extCode ∧
    varsA.tlaStr = varsB.tlaStr ∧
    varsA.tlaCode = varsB.tlaCode ∧
    varsA.AppendToArgs [] ≠ varsB.AppendToArgs [] := by
  refine ⟨List.Perm.swap ("b", "2") ("a", "1") [], rfl, rfl, rfl, ?_⟩
  decide

/-- C10, amended: `AppendToArgs` is deterministic up to map iteration
order: for equal map contents (each of the four maps a permutation of
the other's) and equal input arguments, the outputs agree on the
untouched input prefix and are permutations of each other, and for
identical in-memory iteration orders the outputs are identical. -/
theorem appendToArgs_deterministic_up_to_order (v1 v2 : Variables)
    (args : List String)
    (h1 : v1.extStr.Perm v2.extStr) (h2 : v1.extCode.Perm v2.extCode)
    (h3 : v1.tlaStr.Perm v2.tlaStr) (h4 : v1.tlaCode.Perm v2.tlaCode) :
    (v1.AppendToArgs args).take args.length =
      (v2.AppendToArgs args).take args.length ∧
    (v1.AppendToArgs args).Perm (v2.AppendToArgs args) ∧
    (v1 = v2 → v1.AppendToArgs args = v2.AppendToArgs args) := by
  refine ⟨?_, ?_, fun he => by rw [he]⟩
  · rw [appendToArgs_split, appendToArgs_split, List.take_left,
      List.take_left]
  · rw [appendToArgs_split, appendToArgs_split]
    refine List.Perm.append_left args ?_
    exact ((((h1.flatMap_right _).append
      (h2.flatMap_right _)).append
      (h3.flatMap_right _)).append
      (h4.flatMap_right _))

/-- Witness for C10: the two iteration orders of the same ExtStr map
yield permuted outputs. -/
theorem appendToArgs_deterministic_up_to_order_witness :
    (varsA.AppendToArgs []).Perm (varsB.AppendToArgs []) :=
  (appendToArgs_deterministic_up_to_order varsA varsB []
    (List.Perm.swap ("b", "2") ("a", "1") [])
    (List.Perm.refl _) (List.Perm.refl _) (List.Perm.refl _)).2.1

end KubecfgOperator
